import Mathlib

/-!
Verification development for the Nextdoor scanner (`src/nextdoor_complete.py`).

Each Python routine relevant to the frozen claims is shallowly embedded as an
executable Lean definition.  External effects (the browser page, the Groq API,
the GitHub gist store, SMTP) are abstracted as oracle parameters; all internal
control flow, counters and string manipulation are translated from the source.
Line numbers in comments refer to `src/nextdoor_complete.py`.
-/

/-- Python `s[:n]` on a string (slicing by characters). -/
def strTake (s : String) (n : Nat) : String := String.mk (s.toList.take n)

/-- Python `s.lower()` (handled per character; inputs here are ASCII). -/
def strLower (s : String) : String := String.mk (s.toList.map Char.toLower)

/-- Python `s.strip()`: drop leading and trailing whitespace. -/
def strStrip (s : String) : String :=
  String.mk (((s.toList.dropWhile Char.isWhitespace).reverse.dropWhile
    Char.isWhitespace).reverse)

/-- Index of the first occurrence of `needle` in the remaining character
list, offset by `i` (helper for Python `str.find`). -/
def firstIdxOfAux (needle : List Char) : List Char → Nat → Option Nat
  | [], i => if needle.isPrefixOf ([] : List Char) then some i else none
  | c :: t, i =>
    if needle.isPrefixOf (c :: t) then some i else firstIdxOfAux needle t (i + 1)

/-- Python `hay.find(needle)`, as an `Option` instead of `-1`. -/
def firstSubstrIdx (needle hay : String) : Option Nat :=
  firstIdxOfAux needle.toList hay.toList 0

/-- Python substring test `needle in hay`. -/
def substrContains (hay needle : String) : Bool :=
  (firstSubstrIdx needle hay).isSome

/-- Python `s.startswith(p)`. -/
def strStartsWith (s p : String) : Bool := p.toList.isPrefixOf s.toList

/-- Worker for Python `s.split(sep)` (nonempty `sep`): `cur` holds the
reversed characters of the current piece, `skip` the number of separator
characters still to be consumed after a match. -/
def splitOnAux2 (sep : List Char) : List Char → List Char → Nat → List (List Char)
  | [], cur, _ => [cur.reverse]
  | c :: t, cur, skip =>
    match skip with
    | n + 1 => splitOnAux2 sep t cur n
    | 0 =>
      if sep.isPrefixOf (c :: t) then
        cur.reverse :: splitOnAux2 sep t [] (sep.length - 1)
      else splitOnAux2 sep t (c :: cur) 0

/-- Python `s.split(sep)` for a nonempty separator: every non-overlapping
occurrence splits, empty pieces are kept. -/
def strSplit (s sep : String) : List String :=
  (splitOnAux2 sep.toList s.toList [] 0).map String.mk

example : strSplit "a\nbc\n" "\n" = ["a", "bc", ""] := by decide
example : strSplit "x - y - z" " - " = ["x", "y", "z"] := by decide

/-- A harvested post record (the dict built at lines 1371-1377; the
`debug_full_text` diagnostic key and the later `analysis` enrichment are
omitted because no claim depends on them). -/
structure Post where
  text : String
  author : String
  url : String
  search_term : String
  scroll_found : Nat
deriving DecidableEq, Repr

/-- Dedup key used by `_extract_nextdoor_posts` (line 1395) and by the
cross-search dedup (line 703): `post['text'][:50].lower().strip()`. -/
def lowerKey (s : String) : String := strStrip (strLower (strTake s 50))

/-- Dedup key used by the harvest loop `_scroll_and_collect_posts`
(line 1487): the raw, case-sensitive `post['text'][:50]`. -/
def prefix50 (s : String) : String := strTake s 50

/-- Duplicate removal at the end of `_extract_nextdoor_posts`
(lines 1390-1401): keep the first post for each `lowerKey`, tracking the
set of seen keys. -/
def dedupPosts : List Post → List String → List Post
  | [], _ => []
  | p :: ps, seen =>
    if lowerKey p.text ∈ seen then dedupPosts ps seen
    else p :: dedupPosts ps (lowerKey p.text :: seen)

/-- The merge step of `_scroll_and_collect_posts` (lines 1484-1491): each
post of the freshly extracted batch is appended to the accumulated list
unless some already-accumulated post has the same case-sensitive 50-character
prefix (`existing['text'][:50] == post['text'][:50]`); appended posts are
tagged with the current scroll index.  Returns the new accumulator and the
number of posts added (`new_posts_added`). -/
def mergePosts (sc : Nat) : List Post → List Post → Nat → List Post × Nat
  | acc, [], added => (acc, added)
  | acc, p :: ps, added =>
    if acc.any (fun e => decide (prefix50 e.text = prefix50 p.text)) then
      mergePosts sc acc ps added
    else
      mergePosts sc (acc ++ [{ p with scroll_found := sc }]) ps (added + 1)

/-- The harvest loop of `_scroll_and_collect_posts` (lines 1466-1592).

`feed n` abstracts what `_extract_nextdoor_posts` returns at scroll
iteration `n` (iterations are numbered from 1, as `scroll_count` is
incremented at the top of the loop, line 1475); the extraction-level
duplicate removal of lines 1390-1401 is applied to each batch.  The
human-like scrolling, the page-height retry block (lines 1543-1586) and the
popup dismissal only act on the page — the source explicitly does not break
on an unchanged height ("Don't break immediately - let the no_new_posts_count
logic handle it", line 1583) — so they are absorbed into `feed`.

Arguments: remaining scroll budget (`max_scrolls - scroll_count`), the
current `scroll_count`, the accumulated posts, and `no_new_posts_count`.
Returns the accumulated posts together with the per-iteration trace of
`new_posts_added` counts (one entry per executed loop iteration).
The loop exits when `no_new_posts_count >= 3` (lines 1500-1503) or when the
budget is exhausted (line 1474). -/
def scrollAux (feed : Nat → List Post) : Nat → Nat → List Post → Nat → List Post × List Nat
  | 0, _, acc, _ => (acc, [])
  | rem + 1, sc, acc, nn =>
    let merged := mergePosts (sc + 1) acc (dedupPosts (feed (sc + 1)) []) 0
    let nn2 := if merged.2 = 0 then nn + 1 else 0
    if 3 ≤ nn2 then (merged.1, [merged.2])
    else
      let rest := scrollAux feed rem (sc + 1) merged.1 nn2
      (rest.1, merged.2 :: rest.2)

/-- `_scroll_and_collect_posts` with its default budget `max_scrolls=20`
(line 1466): the returned post sequence. -/
def scroll_and_collect_posts (feed : Nat → List Post) : List Post :=
  (scrollAux feed 20 0 [] 0).1

/-- The per-iteration `new_posts_added` trace of the same run; its length is
the number of loop iterations performed. -/
def scrollTrace (feed : Nat → List Post) : List Nat :=
  (scrollAux feed 20 0 [] 0).2

example : scrollTrace (fun _ => []) = [0, 0, 0] := by decide

example :
    scroll_and_collect_posts
      (fun n => if n = 1 then [⟨"HELLO POOL SERVICE NEEDED TODAY", "A", "", "", 0⟩]
        else if n = 2 then [⟨"hello pool service needed today", "B", "", "", 0⟩]
        else []) =
    [⟨"HELLO POOL SERVICE NEEDED TODAY", "A", "", "", 1⟩,
     ⟨"hello pool service needed today", "B", "", "", 2⟩] := by decide

/-- Invariant of the scroll-level accumulator: no two entries share the raw
(case-sensitive) 50-character text prefix used at line 1487. -/
def PairwisePrefix (l : List Post) : Prop :=
  l.Pairwise (fun a b => prefix50 a.text ≠ prefix50 b.text)

theorem mergePosts_pairwise (sc : Nat) :
    ∀ (batch acc : List Post) (added : Nat), PairwisePrefix acc →
      PairwisePrefix (mergePosts sc acc batch added).1 := by
  intro batch
  induction batch with
  | nil => intro acc added h; simpa [mergePosts] using h
  | cons p ps ih =>
    intro acc added h
    rw [mergePosts]
    split
    · exact ih acc added h
    · rename_i hany
      apply ih
      unfold PairwisePrefix at h ⊢
      rw [List.pairwise_append]
      refine ⟨h, by simp, ?_⟩
      intro a ha b hb
      simp only [List.mem_singleton] at hb
      subst hb
      simp only [List.any_eq_true, not_exists, not_and, Bool.not_eq_true] at hany
      intro hcontra
      have := hany a ha
      simp only [decide_eq_false_iff_not] at this
      exact this hcontra

theorem scrollAux_pairwise (feed : Nat → List Post) :
    ∀ rem sc acc nn, PairwisePrefix acc →
      PairwisePrefix (scrollAux feed rem sc acc nn).1 := by
  intro rem
  induction rem with
  | zero => intro sc acc nn h; simpa [scrollAux] using h
  | succ r ih =>
    intro sc acc nn h
    simp only [scrollAux]
    generalize hM : mergePosts (sc + 1) acc (dedupPosts (feed (sc + 1)) []) 0 = M
    have hMp : PairwisePrefix M.1 := by
      rw [← hM]; exact mergePosts_pairwise _ _ _ _ h
    split <;> split <;> first | exact hMp | exact ih _ _ _ hMp

/-- C1 (amended): in every sequence returned by the harvest loop
`_scroll_and_collect_posts`, any two posts at distinct positions have
distinct raw (case-sensitive) 50-character text prefixes — the dedup key the
loop actually compares at line 1487. -/
theorem scroll_posts_prefix50_distinct (feed : Nat → List Post) (i j : Nat)
    (hi : i < (scroll_and_collect_posts feed).length)
    (hj : j < (scroll_and_collect_posts feed).length) (hij : i ≠ j) :
    prefix50 (((scroll_and_collect_posts feed).get ⟨i, hi⟩).text) ≠
      prefix50 (((scroll_and_collect_posts feed).get ⟨j, hj⟩).text) := by
  have hp : PairwisePrefix (scroll_and_collect_posts feed) :=
    scrollAux_pairwise feed 20 0 [] 0 (by simp [PairwisePrefix])
  unfold PairwisePrefix at hp
  rw [List.pairwise_iff_get] at hp
  rcases Nat.lt_or_ge i j with hlt | hge
  · exact hp ⟨i, hi⟩ ⟨j, hj⟩ hlt
  · have hlt : j < i := Nat.lt_of_le_of_ne hge (Ne.symm hij)
    exact (hp ⟨j, hj⟩ ⟨i, hi⟩ hlt).symm

/-- Feed exhibiting a cross-iteration, case-variant duplicate: iteration 1
yields a post whose text is the upper-case variant of the post yielded at
iteration 2. -/
def cfeedC1 : Nat → List Post := fun n =>
  if n = 1 then [⟨"HELLO POOL SERVICE NEEDED TODAY", "A", "", "", 0⟩]
  else if n = 2 then [⟨"hello pool service needed today", "B", "", "", 0⟩]
  else []

/-- C1 counterexample: the harvest loop can return two distinct posts whose
lowercased 50-character prefixes coincide, because the loop-level dedup at
line 1487 compares the raw prefixes case-sensitively (unlike the lowercased
key of lines 1395 and 703). -/
theorem scroll_posts_share_lowercase_key :
    (scroll_and_collect_posts cfeedC1).length = 2 ∧
    (scroll_and_collect_posts cfeedC1).get ⟨0, by decide⟩ ≠
      (scroll_and_collect_posts cfeedC1).get ⟨1, by decide⟩ ∧
    lowerKey (((scroll_and_collect_posts cfeedC1).get ⟨0, by decide⟩).text) =
      lowerKey (((scroll_and_collect_posts cfeedC1).get ⟨1, by decide⟩).text) := by
  decide

/-- Witness for the amended C1 theorem at a concrete feed. -/
theorem scroll_posts_prefix50_distinct_witness :
    prefix50 (((scroll_and_collect_posts cfeedC1).get ⟨0, by decide⟩).text) ≠
      prefix50 (((scroll_and_collect_posts cfeedC1).get ⟨1, by decide⟩).text) :=
  scroll_posts_prefix50_distinct cfeedC1 0 1 (by decide) (by decide) (by decide)

/-- Soundness predicate for the per-iteration `new_posts_added` trace with
respect to the stagnation counter: starting from counter value `nn`, a
zero-added iteration that pushes the counter to 3 must be the last one
(lines 1495-1503). -/
def stagOK : Nat → List Nat → Prop
  | _, [] => True
  | nn, a :: tr =>
    (a = 0 → 3 ≤ nn + 1 → tr = []) ∧ stagOK (if a = 0 then nn + 1 else 0) tr

theorem scrollAux_stagOK (feed : Nat → List Post) :
    ∀ rem sc acc nn, stagOK nn (scrollAux feed rem sc acc nn).2 := by
  intro rem
  induction rem with
  | zero => intro sc acc nn; simp [scrollAux, stagOK]
  | succ r ih =>
    intro sc acc nn
    simp only [scrollAux]
    generalize mergePosts (sc + 1) acc (dedupPosts (feed (sc + 1)) []) 0 = M
    obtain ⟨acc2, added⟩ := M
    by_cases h0 : added = 0
    · rw [if_pos h0]
      by_cases h3 : 3 ≤ nn + 1
      · rw [if_pos h3]
        exact ⟨fun _ _ => rfl, trivial⟩
      · rw [if_neg h3]
        exact ⟨fun _ h => absurd h h3,
          by rw [if_pos h0]; exact ih (sc + 1) acc2 (nn + 1)⟩
    · rw [if_neg h0]
      rw [if_neg (by omega)]
      exact ⟨fun h => absurd h h0,
        by rw [if_neg h0]; exact ih (sc + 1) acc2 0⟩

theorem scrollAux_trace_len (feed : Nat → List Post) :
    ∀ rem sc acc nn, (scrollAux feed rem sc acc nn).2.length ≤ rem := by
  intro rem
  induction rem with
  | zero => intro sc acc nn; simp [scrollAux]
  | succ r ih =>
    intro sc acc nn
    simp only [scrollAux]
    generalize mergePosts (sc + 1) acc (dedupPosts (feed (sc + 1)) []) 0 = M
    obtain ⟨acc2, added⟩ := M
    by_cases h3 : 3 ≤ (if added = 0 then nn + 1 else 0)
    · rw [if_pos h3]
      simp
    · rw [if_neg h3]
      simpa using ih (sc + 1) acc2 (if added = 0 then nn + 1 else 0)

theorem stagOK_ends :
    ∀ (tr : List Nat) (nn i : Nat), stagOK nn tr → i + 2 < tr.length →
      tr.getD i 0 = 0 → tr.getD (i + 1) 0 = 0 → tr.getD (i + 2) 0 = 0 →
      i + 3 = tr.length := by
  intro tr
  induction tr with
  | nil =>
    intro nn i h hlen h0 h1 h2
    simp at hlen
  | cons a tr ih =>
    intro nn i h hlen h0 h1 h2
    match i with
    | 0 =>
      simp only [List.getD_cons_zero] at h0
      subst h0
      match tr with
      | [] => simp at hlen
      | b :: tr2 =>
        simp only [List.getD_cons_succ, List.getD_cons_zero] at h1
        subst h1
        match tr2 with
        | [] => simp at hlen
        | c :: tr3 =>
          simp only [List.getD_cons_succ, List.getD_cons_zero] at h2
          subst h2
          have h3 : stagOK (nn + 2) ((0 : Nat) :: tr3) := by
            have := (h.2).2
            simpa using this
          have : tr3 = [] := h3.1 rfl (by omega)
          subst this
          simp
    | j + 1 =>
      have hlen2 : j + 2 < tr.length := by
        simp only [List.length_cons] at hlen
        omega
      have hrec := ih (if a = 0 then nn + 1 else 0) j h.2 hlen2
        (by simpa using h0) (by simpa using h1) (by simpa using h2)
      simp only [List.length_cons]
      omega

/-- C4: the harvest loop always terminates within its scroll budget of 20
iterations, and any three consecutive iterations that add zero new posts are
necessarily the final three — the loop stops the moment the stagnation
counter reaches 3 (lines 1474, 1495-1503). -/
theorem scroll_loop_terminates (feed : Nat → List Post) :
    (scrollTrace feed).length ≤ 20 ∧
    ∀ i, i + 2 < (scrollTrace feed).length →
      (scrollTrace feed).getD i 0 = 0 →
      (scrollTrace feed).getD (i + 1) 0 = 0 →
      (scrollTrace feed).getD (i + 2) 0 = 0 →
      i + 3 = (scrollTrace feed).length := by
  constructor
  · exact scrollAux_trace_len feed 20 0 [] 0
  · intro i hlen h0 h1 h2
    exact stagOK_ends _ 0 i (scrollAux_stagOK feed 20 0 [] 0) hlen h0 h1 h2

/-- Witness for C4: a feed that never yields any post makes the loop stop
after exactly 3 iterations, well below the budget of 20. -/
theorem scroll_loop_terminates_witness :
    (scrollTrace (fun _ => [])).length = 3 := by
  have h := (scroll_loop_terminates (fun _ => [])).2 0 (by decide)
    (by decide) (by decide) (by decide)
  omega

/-- The mutable credential-pool state of `BulqitGroqClient` (lines 54-92):
the ordered key list, the cursor `current_key_index` (0 at construction,
line 88) and the per-key `daily_request_count`.  The constructor raises
unless at least one key was loaded (lines 85-86), so pools of interest are
nonempty. -/
structure GroqClient where
  api_keys : List String
  current_key_index : Nat
  daily_request_count : Nat
deriving DecidableEq, Repr

/-- `_rotate_api_key` (lines 94-104): advance the cursor and reset the usage
counter only while the cursor is strictly below the last index
(`current_key_index < len(api_keys) - 1`); report whether rotation
happened. -/
def rotate_api_key (c : GroqClient) : Bool × GroqClient :=
  if c.current_key_index < c.api_keys.length - 1 then
    (true, { c with current_key_index := c.current_key_index + 1,
                    daily_request_count := 0 })
  else
    (false, c)

/-- A parsed classification verdict (the JSON dict of lines 173-178; the
sentinel verdicts of lines 239 and 241 carry no `service_type` key, hence
the `Option`). -/
structure Verdict where
  relevant : Bool
  service_type : Option String
  reason : String
deriving DecidableEq, Repr

/-- The sentinel returned once every credential has been consumed by
rate-limit rotation (line 239). -/
def exhaustedVerdict : Verdict :=
  { relevant := false, service_type := none, reason := "all_keys_exhausted" }

/-- The verdict produced for any non-rate-limit failure (line 241). -/
def analysisErrorVerdict (msg : String) : Verdict :=
  { relevant := false, service_type := none,
    reason := "analysis_error: " ++ msg }

/-- Outcome of one remote classification attempt, as observed by
`analyze_nextdoor_post`: either a successfully parsed verdict, or the string
of the raised exception (the API call, the JSON parse and everything else in
the `try` block of lines 166-225 are behind this oracle boundary). -/
inductive ApiResult where
  | ok (v : Verdict)
  | error (msg : String)

/-- The rate-limit test of line 232:
`"rate_limit_exceeded" in error_str or "429" in error_str`. -/
def isRateLimitError (s : String) : Bool :=
  substrContains s "rate_limit_exceeded" || substrContains s "429"


/-- `analyze_nextdoor_post` (lines 164-241), with the remote call abstracted
as `respond : attempt number → ApiResult`.  On success the per-key usage
counter is bumped (line 208) and the parsed verdict returned; on a
rate-limit exception the client calls `_rotate_api_key` and, if rotation
succeeded, retries itself recursively (lines 232-236); if no key remains it
returns the exhausted sentinel (line 239); any other exception degrades to a
non-relevant verdict (line 241).

`fuel` bounds the recursion depth.  Each retry strictly increases the
cursor, so at most `api_keys.length - 1` retries can happen and the fuel
chosen by `analyze_nextdoor_post` below is never exhausted; the fuel-zero
base case is unreachable from that entry point.  The third component of the
result counts the request attempts performed. -/
def analyzeAux (respond : Nat → ApiResult) :
    Nat → GroqClient → Nat → Verdict × GroqClient × Nat
  | 0, c, attempt => (exhaustedVerdict, c, attempt)
  | fuel + 1, c, attempt =>
    match respond attempt with
    | ApiResult.ok v =>
      (v, { c with daily_request_count := c.daily_request_count + 1 },
        attempt + 1)
    | ApiResult.error msg =>
      if isRateLimitError msg then
        if (rotate_api_key c).1 then
          analyzeAux respond fuel (rotate_api_key c).2 (attempt + 1)
        else
          (exhaustedVerdict, c, attempt + 1)
      else
        (analysisErrorVerdict msg, c, attempt + 1)

/-- One call of `analyze_nextdoor_post` for a single post: starts at attempt
0 with fuel `api_keys.length` (sufficient for every possible rotation
chain). -/
def analyze_nextdoor_post (respond : Nat → ApiResult) (c : GroqClient) :
    Verdict × GroqClient × Nat :=
  analyzeAux respond c.api_keys.length c 0

theorem analyzeAux_rate_limited (respond : Nat → ApiResult)
    (hr : ∀ n, ∃ m, respond n = ApiResult.error m ∧ isRateLimitError m = true) :
    ∀ (fuel : Nat) (c : GroqClient) (attempt : Nat),
      c.current_key_index < c.api_keys.length →
      c.api_keys.length - c.current_key_index ≤ fuel →
      (analyzeAux respond fuel c attempt).1 = exhaustedVerdict ∧
      (analyzeAux respond fuel c attempt).2.1.current_key_index =
        c.api_keys.length - 1 ∧
      (analyzeAux respond fuel c attempt).2.2 =
        attempt + (c.api_keys.length - c.current_key_index) := by
  intro fuel
  induction fuel with
  | zero =>
    intro c attempt hlt hfuel
    omega
  | succ f ih =>
    intro c attempt hlt hfuel
    obtain ⟨m, hm, hrl⟩ := hr attempt
    rw [analyzeAux, hm]
    simp only [hrl, if_true]
    by_cases hidx : c.current_key_index < c.api_keys.length - 1
    · have hrot1 : (rotate_api_key c).1 = true := by
        rw [rotate_api_key, if_pos hidx]
      have hrot2 : (rotate_api_key c).2 =
          { c with current_key_index := c.current_key_index + 1,
                   daily_request_count := 0 } := by
        rw [rotate_api_key, if_pos hidx]
      rw [hrot1, if_pos rfl, hrot2]
      have h2 := ih { c with current_key_index := c.current_key_index + 1,
                             daily_request_count := 0 } (attempt + 1)
        (by simp; omega) (by simp; omega)
      refine ⟨h2.1, h2.2.1, ?_⟩
      rw [h2.2.2]
      simp only []
      omega
    · have hrot1 : (rotate_api_key c).1 = false := by
        rw [rotate_api_key, if_neg hidx]
      rw [hrot1, if_neg (by simp)]
      refine ⟨rfl, ?_, ?_⟩
      · exact (by omega : c.current_key_index = c.api_keys.length - 1)
      · exact (by omega :
          attempt + 1 = attempt + (c.api_keys.length - c.current_key_index))

/-- C2: with the cursor at 0 over N (at least one) credentials and a remote
service that rate-limits every request, classifying one post performs
exactly N request attempts — one per credential, rotating to the next
credential after each rate-limited attempt — and returns the exhausted
sentinel verdict with `relevant = false` (lines 227-241, 94-104). -/
theorem analyze_exhausts_all_keys (respond : Nat → ApiResult) (c : GroqClient)
    (hstart : c.current_key_index = 0) (hne : 1 ≤ c.api_keys.length)
    (hr : ∀ n, ∃ m, respond n = ApiResult.error m ∧ isRateLimitError m = true) :
    (analyze_nextdoor_post respond c).1 = exhaustedVerdict ∧
    (analyze_nextdoor_post respond c).1.relevant = false ∧
    (analyze_nextdoor_post respond c).2.2 = c.api_keys.length ∧
    (analyze_nextdoor_post respond c).2.1.current_key_index =
      c.api_keys.length - 1 := by
  have h := analyzeAux_rate_limited respond hr c.api_keys.length c 0
    (by omega) (by omega)
  rw [analyze_nextdoor_post]
  refine ⟨h.1, ?_, ?_, h.2.1⟩
  · rw [h.1]; rfl
  · rw [h.2.2, hstart]; omega

/-- A three-key pool at cursor 0 and a service that always rate-limits. -/
def cpoolC2 : GroqClient :=
  { api_keys := ["k1", "k2", "k3"], current_key_index := 0,
    daily_request_count := 0 }

/-- Responder raising a rate-limit error on every attempt. -/
def respondRL : Nat → ApiResult := fun _ => ApiResult.error "rate_limit_exceeded"

/-- Witness for C2 with three credentials: exactly 3 attempts, exhausted
sentinel. -/
theorem analyze_exhausts_all_keys_witness :
    (analyze_nextdoor_post respondRL cpoolC2).1 = exhaustedVerdict ∧
    (analyze_nextdoor_post respondRL cpoolC2).2.2 = 3 := by
  have h := analyze_exhausts_all_keys respondRL cpoolC2 rfl (by decide)
    (fun n => ⟨"rate_limit_exceeded", rfl, by decide⟩)
  exact ⟨h.1, h.2.2.1⟩

/-- C9: the credential cursor is monotonically non-decreasing and never
wraps.  `_rotate_api_key` increments the cursor exactly when it is strictly
below the last index and leaves it unchanged otherwise, and a whole
classification call never decreases the cursor, never moves it beyond the
last index, and never modifies the key list (lines 94-104, 227-241). -/
theorem credential_cursor_monotone (c : GroqClient) :
    ((rotate_api_key c).2.current_key_index =
      if c.current_key_index < c.api_keys.length - 1
      then c.current_key_index + 1 else c.current_key_index) ∧
    ∀ (respond : Nat → ApiResult) (fuel attempt : Nat),
      c.current_key_index ≤
        (analyzeAux respond fuel c attempt).2.1.current_key_index ∧
      (analyzeAux respond fuel c attempt).2.1.current_key_index ≤
        max c.current_key_index (c.api_keys.length - 1) ∧
      (analyzeAux respond fuel c attempt).2.1.api_keys = c.api_keys := by
  constructor
  · rw [rotate_api_key]
    split <;> simp
  · intro respond fuel
    induction fuel generalizing c with
    | zero =>
      intro attempt
      rw [analyzeAux]
      simp
    | succ f ih =>
      intro attempt
      rw [analyzeAux]
      cases hresp : respond attempt with
      | ok v => simp
      | error m =>
        by_cases hrl : isRateLimitError m
        · simp only [hrl, if_true]
          by_cases hidx : c.current_key_index < c.api_keys.length - 1
          · have hrot1 : (rotate_api_key c).1 = true := by
              rw [rotate_api_key, if_pos hidx]
            have hrot2 : (rotate_api_key c).2 =
                { c with current_key_index := c.current_key_index + 1,
                         daily_request_count := 0 } := by
              rw [rotate_api_key, if_pos hidx]
            rw [hrot1, if_pos rfl, hrot2]
            have h2 := ih { c with current_key_index := c.current_key_index + 1,
                                   daily_request_count := 0 } (attempt + 1)
            refine ⟨Nat.le_trans (Nat.le_succ _) h2.1, ?_, h2.2.2⟩
            have hle := h2.2.1
            simp only [] at hle
            omega
          · have hrot1 : (rotate_api_key c).1 = false := by
              rw [rotate_api_key, if_neg hidx]
            rw [hrot1, if_neg (by simp)]
            simp
        · simp [hrl]

/-- Outcome of one `_poll_gist_for_code` iteration inside
`_wait_for_2fa_code`, as seen by the wait loop: a code was extracted, no
code yet, or an exception escaped the iteration into the outer handler of
lines 901-904 (the poller catches its own network errors, but the spec
requires cleanup even for injected exceptions). -/
inductive PollStep where
  | found (code : String)
  | noCode
  | raisesError

/-- Oracle for one execution of `_wait_for_2fa_code`: whether gist creation
succeeded (lines 873-876) and what each polling attempt yields. -/
structure WaitOracle where
  createOk : Bool
  step : Nat → PollStep

/-- Observable effects of `_wait_for_2fa_code`, in order of occurrence. -/
inductive WEvent where
  | created
  | notified
  | polled (attempt : Nat)
  | deleted
deriving DecidableEq, Repr

/-- The polling loop of `_wait_for_2fa_code` (lines 881-899) plus the
exception handler of lines 901-904: up to `rem` remaining attempts
(`max_attempts = 6`); a found code triggers `_delete_2fa_gist` then returns
the code (lines 887-890); an exception reaches the handler which deletes and
returns `None` (lines 901-904); exhausting the attempts deletes and returns
`None` (lines 897-899). -/
def waitLoop (step : Nat → PollStep) :
    Nat → Nat → List WEvent → Option String × List WEvent
  | 0, _, evs => (none, evs ++ [WEvent.deleted])
  | rem + 1, attempt, evs =>
    match step attempt with
    | PollStep.found c =>
      (some c, evs ++ [WEvent.polled attempt, WEvent.deleted])
    | PollStep.raisesError =>
      (none, evs ++ [WEvent.polled attempt, WEvent.deleted])
    | PollStep.noCode => waitLoop step rem (attempt + 1) (evs ++ [WEvent.polled attempt])

/-- `_wait_for_2fa_code` (lines 867-904): create the gist (returning `None`
with no remote document to clean when creation fails, lines 874-876), send
the notification email (whose sender swallows its own errors,
lines 116-157), then poll up to 6 times. -/
def wait_for_2fa_code (o : WaitOracle) : Option String × List WEvent :=
  if o.createOk then waitLoop o.step 6 0 [WEvent.created, WEvent.notified]
  else (none, [])

theorem waitLoop_deletes_last (step : Nat → PollStep) :
    ∀ (rem attempt : Nat) (evs : List WEvent),
      (waitLoop step rem attempt evs).2.getLast? = some WEvent.deleted := by
  intro rem
  induction rem with
  | zero =>
    intro attempt evs
    rw [waitLoop]
    exact List.getLast?_concat evs
  | succ r ih =>
    intro attempt evs
    rw [waitLoop]
    cases step attempt with
    | found c =>
      show (evs ++ [WEvent.polled attempt, WEvent.deleted]).getLast? = _
      rw [List.getLast?_append]
      rfl
    | raisesError =>
      show (evs ++ [WEvent.polled attempt, WEvent.deleted]).getLast? = _
      rw [List.getLast?_append]
      rfl
    | noCode => exact ih (attempt + 1) (evs ++ [WEvent.polled attempt])

/-- C3: whenever the remote 2FA document was actually created, the very last
observable action of `_wait_for_2fa_code` — on the code-found path, the
timeout path, and the injected-exception path alike — is the deletion of the
document, so cleanup happens before the operation returns on every exit
path (lines 867-904, 843-865). -/
theorem wait_for_2fa_always_deletes (o : WaitOracle)
    (hc : o.createOk = true) :
    ((wait_for_2fa_code o).2).getLast? = some WEvent.deleted := by
  rw [wait_for_2fa_code, if_pos hc]
  exact waitLoop_deletes_last o.step 6 0 _

/-- Witness for C3: an oracle whose polls never find a code (the timeout
path). -/
theorem wait_for_2fa_always_deletes_witness :
    ((wait_for_2fa_code ⟨true, fun _ => PollStep.noCode⟩).2).getLast? =
      some WEvent.deleted :=
  wait_for_2fa_always_deletes ⟨true, fun _ => PollStep.noCode⟩ rfl

/-- Python `str.isdigit()` restricted to ASCII (gist contents here are
ASCII): nonempty and all characters are digits. -/
def isAllDigits (s : String) : Bool :=
  decide (s ≠ "") && s.toList.all Char.isDigit

/-- The line scan of `_poll_gist_for_code` (lines 820-834): for each line,
first try the stripped line as a whole 6-digit code; otherwise, unless the
line is empty, the sentinel, or an instructions line, extract its digits and
accept them when exactly 6 remain; otherwise move to the next line. -/
def pollLines : List String → Option String
  | [] => none
  | l :: ls =>
    let line := strStrip l
    if line ≠ "" ∧ isAllDigits line ∧ line.length = 6 then some line
    else
      if line ≠ "" ∧ line ≠ "ENTER_2FA_CODE_HERE" ∧
          ¬ (strStartsWith line "Instructions:" = true) then
        let digits := String.mk (line.toList.filter Char.isDigit)
        if digits.length = 6 then some digits else pollLines ls
      else pollLines ls

/-- The 6-digit extraction of `_poll_gist_for_code` applied to the fetched
document content (lines 814-834): split on newlines and scan. -/
def poll_gist_for_code (content : String) : Option String :=
  pollLines (strSplit content "\n")

/-- C8: the poller extracts "123456" from "Instructions:\n123456\n" (a whole
line of digits), returns none for the untouched sentinel document, ignores
instructional lines, and also accepts a 6-digit code embedded in a line of
other characters (lines 799-841). -/
theorem poll_gist_extraction_examples :
    poll_gist_for_code "Instructions:\n123456\n" = some "123456" ∧
    poll_gist_for_code "ENTER_2FA_CODE_HERE" = none ∧
    poll_gist_for_code "my code is 987654, thanks" = some "987654" ∧
    poll_gist_for_code "Instructions:\nENTER_2FA_CODE_HERE\n" = none := by
  decide

/-- The hard-coded fallback list of per-digit input field ids used by
`_enter_2fa_code` when discovery fails (line 919). -/
def fallback_input_ids : List String :=
  ["_rd_", "_re_", "_rf_", "_rg_", "_rh_", "_ri_"]

/-- `_enter_2fa_code` (lines 906-958).  Oracles: `input_ids` is the
discovered (or fallback) ordered id list; `typeDigitOk i` tells whether
locating field `input_ids[i]` and sending the i-th digit succeeded (an
out-of-range index raises and is caught by the per-digit handler of
lines 935-937, hence the bounds check); `urlAfter` is the value of
`driver.current_url` read at line 944 (`none` models the read raising, the
handler of lines 951-952).

Control flow: a code whose length is not 6 fails (lines 921-923); any digit
that cannot be entered fails (lines 926-937); then, after the settle delay,
the URL is inspected once — if it no longer contains "/login/" the function
returns `True` (lines 943-949) — and otherwise execution falls through to
the unconditional `return True` of line 954, reporting success even though
the location is still on the login path. -/
def enter_2fa_code (code : String) (input_ids : List String)
    (typeDigitOk : Nat → Bool) (urlAfter : Option String) : Bool :=
  if code.length ≠ 6 then false
  else if (List.range code.length).all
      (fun i => decide (i < input_ids.length) && typeDigitOk i) then
    match urlAfter with
    | some u =>
      if substrContains u "/login/" = false then
        true
      else
        true
    | none => true
  else false

/-- C5 evaluation (code bug): even when the browser location still contains
"/login/" after the 6 digits were submitted, `_enter_2fa_code` returns
`True` — line 947 guards a `return True`, but line 954 returns `True`
unconditionally anyway — so `_login_to_nextdoor` (lines 596-598) treats the
attempt as successful instead of failing. -/
theorem enter_2fa_code_ignores_login_url :
    substrContains "https://nextdoor.com/login/?verify=1" "/login/" = true ∧
    enter_2fa_code "123456" fallback_input_ids (fun _ => true)
      (some "https://nextdoor.com/login/?verify=1") = true := by
  decide

/-- The ladder of search-box selectors tried by `_search_for_term`
(lines 967-978). -/
def search_selectors : List String :=
  ["#search-input-field",
   "input[aria-label=\"Search Nextdoor\"]",
   "input[placeholder*=\"Search\"]",
   "input[placeholder*=\"search\"]",
   "input[type=\"search\"]",
   "[data-testid=\"search-input\"]",
   ".search-input",
   "input[name=\"search\"]",
   "#search",
   "input[aria-label*=\"Search\"]"]

/-- `_search_for_term` (lines 960-1048).  `findBox sel` tells whether the
wait for selector `sel` located the search box; if every selector fails the
function returns `False` (lines 989-991).  Otherwise the remaining
interaction — clicking, paced typing, submitting, and on the first search
the Posts-tab and This-week filters (whose individual failures are only
printed, lines 1029-1042) — is abstracted by `restOk`, the value the
function returns after the box was found (`false` models an exception
reaching the handler of lines 1046-1048). -/
def search_for_term (findBox : String → Bool) (restOk : Bool) : Bool :=
  if search_selectors.any findBox then restOk else false

/-- The post-authentication phase of `_login_to_nextdoor`
(lines 646-726), which is reached once login/2FA succeeded.  Arguments:
today's search `term` (line 641), the result of `_search_for_term`, the
posts collected by `_scroll_and_collect_posts` when the search succeeded,
and the Groq relevance filter.  Returns the value `_login_to_nextdoor`
returns, the subjects of the ReportSink sends attempted by this phase, and
the deduplicated post list.

When the search fails, the source prints "Search failed" and falls through
(lines 695-696): `all_posts` stays empty, no alert or report email is sent,
and the function still returns `True` (line 726). -/
def login_after_auth (term : String) (searchOk : Bool)
    (collected : List Post) (filterRelevant : List Post → List Post) :
    Bool × List String × List Post :=
  if searchOk then
    if collected ≠ [] then
      let all_posts := collected.map (fun p => { p with search_term := term })
      let unique_posts := dedupPosts all_posts []
      if unique_posts ≠ [] then
        let relevant_posts := filterRelevant unique_posts
        if relevant_posts ≠ [] then
          (true, ["nextdoor_report"], unique_posts)
        else
          (true, [], unique_posts)
      else (true, [], [])
    else
      (true, ["zero_posts_alert"], [])
  else
    (true, [], [])

/-- C6 counterexample: when every search-box selector fails, the search
returns `False`, yet the run completes with the success result `True` and
sends nothing through the ReportSink — it does not abort and the failure is
not surfaced (lines 989-991, 695-696, 726). -/
theorem search_failure_not_surfaced :
    search_for_term (fun _ => false) true = false ∧
    login_after_auth "pool" false [] (fun l => l) = (true, [], []) := by
  decide

/-- C6 (amended): if the search-box lookup fails for every selector,
`_search_for_term` reports failure and no posts are harvested, but
`_login_to_nextdoor` still returns `True` (the run is reported successful)
and no ReportSink notification is produced by this phase. -/
theorem search_failure_completes_quietly (findBox : String → Bool)
    (restOk : Bool) (term : String) (collected : List Post)
    (filterRelevant : List Post → List Post)
    (hfail : ∀ sel ∈ search_selectors, findBox sel = false) :
    search_for_term findBox restOk = false ∧
    login_after_auth term (search_for_term findBox restOk) collected
      filterRelevant = (true, [], []) := by
  have hnone : search_selectors.any findBox = false := by
    rw [List.any_eq_false]
    intro sel hsel
    simp [hfail sel hsel]
  have h1 : search_for_term findBox restOk = false := by
    rw [search_for_term, hnone]
    simp
  refine ⟨h1, ?_⟩
  rw [h1]
  rfl

/-- Witness for the amended C6 theorem. -/
theorem search_failure_completes_quietly_witness :
    search_for_term (fun _ => false) false = false ∧
    login_after_auth "lawn" (search_for_term (fun _ => false) false) []
      (fun l => l) = (true, [], []) :=
  search_failure_completes_quietly (fun _ => false) false "lawn" []
    (fun l => l) (fun _ _ => rfl)

/-- Stable ordered insert by author name, the building block of Python's
stable `sorted(relevant_posts, key=lambda x: x.get('author', 'Unknown'))` at
line 291 (every post record carries an author, so the `'Unknown'` default
never fires).  An element is placed before the first member whose author is
`≥` its own, so original order is kept among equal authors. -/
def insertByAuthor (x : Post) : List Post → List Post
  | [] => [x]
  | y :: ys =>
    if x.author ≤ y.author then x :: y :: ys else y :: insertByAuthor x ys

/-- The ascending, stable author sort of `generate_report` (line 291). -/
def sortByAuthor (l : List Post) : List Post := l.foldr insertByAuthor []

/-- The numbered body entries of the report: `enumerate(sorted_posts, 1)`
(line 296), pairing each sorted post with its 1-based position. -/
def generate_report_entries (relevant_posts : List Post) : List (Nat × Post) :=
  List.enumFrom 1 (sortByAuthor relevant_posts)

theorem mem_insertByAuthor {z x : Post} :
    ∀ {l : List Post}, z ∈ insertByAuthor x l → z = x ∨ z ∈ l := by
  intro l
  induction l with
  | nil => intro h; simpa [insertByAuthor] using h
  | cons y ys ih =>
    intro h
    rw [insertByAuthor] at h
    by_cases hc : x.author ≤ y.author
    · rw [if_pos hc] at h
      rcases List.mem_cons.mp h with h1 | h1
      · exact Or.inl h1
      · exact Or.inr h1
    · rw [if_neg hc] at h
      rcases List.mem_cons.mp h with h1 | h1
      · exact Or.inr (by simp [h1])
      · rcases ih h1 with h2 | h2
        · exact Or.inl h2
        · exact Or.inr (by simp [h2])

theorem pairwise_insertByAuthor {x : Post} :
    ∀ {l : List Post},
      l.Pairwise (fun a b : Post => a.author ≤ b.author) →
      (insertByAuthor x l).Pairwise (fun a b : Post => a.author ≤ b.author) := by
  intro l
  induction l with
  | nil => intro h; simp [insertByAuthor]
  | cons y ys ih =>
    intro h
    rw [insertByAuthor]
    split
    · rename_i hxy
      refine List.Pairwise.cons ?_ h
      intro b hb
      rcases List.mem_cons.mp hb with hb1 | hb1
      · simpa [hb1] using hxy
      · exact le_trans hxy (List.rel_of_pairwise_cons h hb1)
    · rename_i hxy
      have hyx : y.author ≤ x.author := le_of_not_le hxy
      refine List.Pairwise.cons ?_ (ih (List.Pairwise.of_cons h))
      intro b hb
      rcases mem_insertByAuthor hb with hb2 | hb2
      · simpa [hb2] using hyx
      · exact List.rel_of_pairwise_cons h hb2

theorem perm_insertByAuthor (x : Post) :
    ∀ (l : List Post), (insertByAuthor x l).Perm (x :: l) := by
  intro l
  induction l with
  | nil => simp [insertByAuthor]
  | cons y ys ih =>
    rw [insertByAuthor]
    split
    · exact List.Perm.refl _
    · exact ((ih.cons y).trans (List.Perm.swap x y ys))

theorem sortByAuthor_sorted (l : List Post) :
    (sortByAuthor l).Pairwise (fun a b : Post => a.author ≤ b.author) := by
  induction l with
  | nil => simp [sortByAuthor]
  | cons p ps ih => exact pairwise_insertByAuthor ih

theorem sortByAuthor_perm (l : List Post) : (sortByAuthor l).Perm l := by
  induction l with
  | nil => simp [sortByAuthor]
  | cons p ps ih =>
    have h1 := perm_insertByAuthor p (sortByAuthor ps)
    exact h1.trans (ih.cons p)

/-- C10: for every non-empty relevant-post list, the numbered report body of
`generate_report` lists exactly the given posts (a permutation), in
ascending alphabetical order of their author field, numbered consecutively
from 1 (lines 291-299). -/
theorem report_entries_sorted_by_author (relevant_posts : List Post)
    (_hne : relevant_posts ≠ []) :
    ((generate_report_entries relevant_posts).map Prod.snd).Pairwise
      (fun a b : Post => a.author ≤ b.author) ∧
    ((generate_report_entries relevant_posts).map Prod.snd).Perm
      relevant_posts ∧
    (generate_report_entries relevant_posts).map Prod.fst =
      List.range' 1 relevant_posts.length := by
  have hsnd : (List.enumFrom 1 (sortByAuthor relevant_posts)).map Prod.snd =
      sortByAuthor relevant_posts := by
    simp [List.enumFrom_map_snd]
  have hlen : (sortByAuthor relevant_posts).length = relevant_posts.length :=
    (sortByAuthor_perm relevant_posts).length_eq
  refine ⟨?_, ?_, ?_⟩
  · rw [generate_report_entries, hsnd]
    exact sortByAuthor_sorted relevant_posts
  · rw [generate_report_entries, hsnd]
    exact sortByAuthor_perm relevant_posts
  · rw [generate_report_entries]
    rw [List.enumFrom_map_fst, hlen]

/-- Witness for C10 on a concrete, unsorted two-post list. -/
theorem report_entries_sorted_by_author_witness :
    ((generate_report_entries
      [⟨"need gardener for weekly yard maintenance", "Zoe", "", "pool", 1⟩,
       ⟨"looking for a reliable pool cleaning company", "Amy", "", "pool", 2⟩]).map
        Prod.snd).Pairwise (fun a b : Post => a.author ≤ b.author) ∧
    ((generate_report_entries
      [⟨"need gardener for weekly yard maintenance", "Zoe", "", "pool", 1⟩,
       ⟨"looking for a reliable pool cleaning company", "Amy", "", "pool", 2⟩]).map
        Prod.snd).Perm
      [⟨"need gardener for weekly yard maintenance", "Zoe", "", "pool", 1⟩,
       ⟨"looking for a reliable pool cleaning company", "Amy", "", "pool", 2⟩] ∧
    (generate_report_entries
      [⟨"need gardener for weekly yard maintenance", "Zoe", "", "pool", 1⟩,
       ⟨"looking for a reliable pool cleaning company", "Amy", "", "pool", 2⟩]).map
        Prod.fst =
      List.range' 1 2 :=
  report_entries_sorted_by_author
    [⟨"need gardener for weekly yard maintenance", "Zoe", "", "pool", 1⟩,
     ⟨"looking for a reliable pool cleaning company", "Amy", "", "pool", 2⟩]
    (by simp)

/-- Regular expressions over characters, used to embed the `re` patterns of
`_extract_nextdoor_posts` (character classes are Lean predicates; `star`
covers both greedy and lazy Python quantifiers, since only the existence and
the start position of a match are observable through `match.start()`). -/
inductive RE where
  | emp
  | eps
  | cls (p : Char → Bool)
  | seq (a b : RE)
  | alt (a b : RE)
  | star (a : RE)

/-- Whether the regex accepts the empty word. -/
def RE.nullable : RE → Bool
  | .emp => false
  | .eps => true
  | .cls _ => false
  | .seq a b => a.nullable && b.nullable
  | .alt a b => a.nullable || b.nullable
  | .star _ => true

/-- Smart sequencing (keeps Brzozowski derivatives small). -/
def mkSeq : RE → RE → RE
  | RE.emp, _ => RE.emp
  | _, RE.emp => RE.emp
  | RE.eps, b => b
  | a, RE.eps => a
  | a, b => RE.seq a b

/-- Smart alternation (keeps Brzozowski derivatives small). -/
def mkAlt : RE → RE → RE
  | RE.emp, b => b
  | a, RE.emp => a
  | a, b => RE.alt a b

/-- Brzozowski derivative of a regex by one character. -/
def RE.deriv : RE → Char → RE
  | .emp, _ => .emp
  | .eps, _ => .emp
  | .cls p, c => if p c then .eps else .emp
  | .seq a b, c =>
    if a.nullable then mkAlt (mkSeq (a.deriv c) b) (b.deriv c)
    else mkSeq (a.deriv c) b
  | .alt a b, c => mkAlt (a.deriv c) (b.deriv c)
  | .star a, c => mkSeq (a.deriv c) (.star a)

/-- Whole-word regex match by iterated derivatives. -/
def reMatch (r : RE) (s : List Char) : Bool :=
  (s.foldl RE.deriv r).nullable

/-- Does some prefix of `s` match `r`?  (Padding with an unconstrained
tail.) -/
def canMatchAtFront (r : RE) (s : List Char) : Bool :=
  reMatch (mkSeq r (RE.star (RE.cls (fun _ => true)))) s

/-- `re.search(r, s).start()`: the least index at which a match of `r`
begins, scanning left to right. -/
def reSearchIdx (r : RE) : List Char → Nat → Option Nat
  | [], i => if canMatchAtFront r [] then some i else none
  | c :: t, i =>
    if canMatchAtFront r (c :: t) then some i else reSearchIdx r t (i + 1)

/-- `re.search` on a string, returning the match start position. -/
def reSearch (r : RE) (s : String) : Option Nat := reSearchIdx r s.toList 0

/-- Literal string regex. -/
def reLit (s : String) : RE :=
  s.toList.foldr (fun c r => RE.seq (RE.cls (fun x => x == c)) r) RE.eps

/-- Python `\d` (ASCII digits; the scraped text is ASCII). -/
def reDigit : RE := RE.cls Char.isDigit

/-- `[A-Z]`. -/
def reUpper : RE := RE.cls (fun c => decide ('A' ≤ c) && decide (c ≤ 'Z'))

/-- `[a-z]`. -/
def reLower : RE := RE.cls (fun c => decide ('a' ≤ c) && decide (c ≤ 'z'))

/-- Python `\s`. -/
def reWS : RE := RE.cls Char.isWhitespace

/-- Python `.` without DOTALL: any character except a newline. -/
def reDot : RE := RE.cls (fun c => c != '\n')

/-- `r+`. -/
def rePlus (r : RE) : RE := RE.seq r (RE.star r)

/-- `r?`. -/
def reOpt (r : RE) : RE := RE.alt r RE.eps

/-- Alternation over a list of literal words. -/
def reAnyOf (ws : List String) : RE :=
  ws.foldr (fun w r => mkAlt (reLit w) r) RE.emp

/-- The location alternation inside reply pattern 1 (line 1326). -/
def replyLocations1 : List String :=
  ["Los Angeles", "Studio City", "Sherman Oaks", "Encino", "Burbank",
   "Panorama City", "Mandeville", "Cahuenga", "Brentwood", "Palisades",
   "Highlands", "West", "Central", "Kenter", "WeHo", "Glendale"]

/-- Reply pattern 1 (line 1326): digits, then a capitalised name pair, then
anything up to one of the known locations. -/
def replyPattern1 : RE :=
  RE.seq (rePlus reDigit)
    (RE.seq reUpper (RE.seq (RE.star reLower) (RE.seq (RE.star reWS)
      (RE.seq reUpper (RE.seq (RE.star reLower)
        (RE.seq (RE.star reDot) (reAnyOf replyLocations1)))))))

/-- Reply pattern 2 (line 1328): two or more digits followed by two capitals
and a lowercase letter. -/
def replyPattern2 : RE :=
  RE.seq reDigit (RE.seq (rePlus reDigit)
    (RE.seq reUpper (RE.seq reUpper reLower)))

/-- Reply pattern 3 (line 1330): a time stamp followed by a name. -/
def replyPattern3 : RE :=
  RE.seq (rePlus reDigit) (RE.seq (RE.star reWS) (RE.seq (reLit "h")
    (RE.seq (reOpt (reLit "r")) (RE.seq (RE.star reWS) (RE.seq (reLit "ago")
      (RE.seq reUpper (RE.seq (rePlus reLower)
        (RE.seq (reLit " ") reUpper))))))))

/-- The `reply_patterns` list of lines 1325-1331, in source order. -/
def reply_patterns : List RE := [replyPattern1, replyPattern2, replyPattern3]

/-- The truncation loop of lines 1333-1338: the first pattern with a match
cuts the text at the match start (then strips); otherwise the text is
unchanged. -/
def applyReplyPatterns : List RE → String → String
  | [], t => t
  | r :: rs, t =>
    match reSearch r t with
    | some i => strStrip (strTake t i)
    | none => applyReplyPatterns rs t

/-- `re.sub(r'^\d+\s*', '', s)` (line 1348): if the string starts with
digits, drop that digit run and the whitespace after it. -/
def subLeadingDigits (s : String) : String :=
  match s.toList with
  | [] => s
  | c :: _ =>
    if c.isDigit then
      String.mk ((s.toList.dropWhile Char.isDigit).dropWhile Char.isWhitespace)
    else s

/-- Drop trailing whitespace of a character list. -/
def dropTrailingWS (l : List Char) : List Char :=
  (l.reverse.dropWhile Char.isWhitespace).reverse

/-- `re.sub(r'\d+\s*$', '', s)` (line 1349): if, after any trailing
whitespace, the string ends in a digit run, remove that run together with
the trailing whitespace; otherwise leave the string unchanged. -/
def subTrailingDigits (s : String) : String :=
  let r := s.toList.reverse
  let r1 := r.dropWhile Char.isWhitespace
  match r1 with
  | [] => s
  | c :: _ =>
    if c.isDigit then String.mk ((r1.dropWhile Char.isDigit).reverse)
    else s

/-- `re.sub(r'\s*(CA|California)\s*$', '', s)` (line 1304): remove a
trailing "CA" or "California" (checking the longer literal first, as the
shorter one cannot match where the longer does) together with the
whitespace around it; otherwise leave the string unchanged. -/
def subTrailingCA (s : String) : String :=
  let l := dropTrailingWS s.toList
  if "California".toList.isSuffixOf l then
    String.mk (dropTrailingWS (l.take (l.length - 10)))
  else if "CA".toList.isSuffixOf l then
    String.mk (dropTrailingWS (l.take (l.length - 2)))
  else s

/-- The gazetteer of known neighbourhood names, longest first
(lines 1289-1292), in source order. -/
def known_locations : List String :=
  ["West Studio City", "Studio City", "Sherman Oaks", "Panorama City",
   "Mandeville Canyon", "Cahuenga Pass", "Brentwood Place", "West Hills",
   "North Hollywood", "Valley Village", "Los Angeles", "West LA", "Encino",
   "Tarzana", "Burbank", "Brentwood", "Palisades", "The Highlands",
   "Glendale", "Pasadena", "Beverly Hills", "WeHo", "Kenter", "Central"]

/-- The gazetteer loop of lines 1294-1301: the first known location that
occurs at a positive index truncates the author/location text before it
(stripped); a location occurring at index 0 does not break the loop, and if
nothing applies the whole text is kept. -/
def gazetteerScan (author_location : String) : List String → String
  | [] => author_location
  | loc :: rest =>
    match firstSubstrIdx loc author_location with
    | some i =>
      if 0 < i then strStrip (strTake author_location i)
      else gazetteerScan author_location rest
    | none => gazetteerScan author_location rest

/-- Python `sep.join(pieces)`. -/
def strJoinWith (sep : String) : List String → String
  | [] => ""
  | [x] => x
  | x :: xs => x ++ sep ++ strJoinWith sep xs

/-- Python `s.split(sep, 1)[1]` when `sep` occurs in `s`: everything after
the first occurrence. -/
def splitFirstAfter (s sep : String) : String :=
  match firstSubstrIdx sep s with
  | some i => String.mk (s.toList.drop (i + sep.length))
  | none => ""

/-- The short reply-indicator tokens of line 1366, in source order. -/
def reply_indicators : List String :=
  ["@", "Reply to", "Thanks", "Thank you", "Yes", "No", "Agree", "Same here"]

/-- The per-container parsing of `_extract_nextdoor_posts`
(lines 1256-1384), as a function of the container's concatenated text
(`container.get_text(strip=True)`, line 1265) and the post URL extracted
from its link (line 1259-1262; empty when absent).  Returns `none` when the
container is skipped.

Steps, mirroring the source: skip traffic alerts and empty text
(lines 1267-1269); split on " · " (line 1276); author from the ", CA"
prefix rule or the gazetteer plus the trailing-CA cleanup
(lines 1278-1304); body text from the first " ago" (lines 1307-1316);
reply truncation by the first matching pattern (lines 1319-1338); leading
and trailing digit-run cleanup plus strip (lines 1344-1350); reject
missing/short records (lines 1352-1354); main-post filtering by length and
reply indicators (lines 1356-1368); build the record (lines 1371-1377),
whose `search_term` is set later (line 664) and whose scroll index is
attached by the harvest loop (line 1488), hence the neutral 0 here. -/
def parse_container_text (full_text : String) (post_url : String) :
    Option Post :=
  if substrContains full_text "Traffic Alerts" || decide (full_text = "") then
    none
  else
    let parts := strSplit full_text " · "
    let ap :=
      if 2 ≤ parts.length then
        let author_location := strStrip (parts.headD "")
        let author_name :=
          if substrContains author_location ", CA" then
            strStrip ((strSplit author_location ", CA").headD "")
          else
            strStrip (subTrailingCA
              (gazetteerScan author_location known_locations))
        let remaining := strJoinWith " · " (parts.drop 1)
        let post_text0 :=
          if substrContains remaining " ago" then
            strStrip (splitFirstAfter remaining " ago")
          else remaining
        let post_text1 :=
          if decide (post_text0 ≠ "") then
            applyReplyPatterns reply_patterns post_text0
          else post_text0
        (author_name, post_text1)
      else ("", full_text)
    let author_name := ap.1
    let post_text :=
      if decide (ap.2 ≠ "") then
        strStrip (subTrailingDigits (subLeadingDigits ap.2))
      else ap.2
    if decide (author_name = "") || decide (post_text = "") ||
        decide (post_text.length < 20) then none
    else if decide (post_text ≠ "") && decide (30 < post_text.length) &&
        decide (author_name ≠ "") && decide (author_name ≠ "Unknown") then
      let is_main1 := if post_text.length < 40 then false else true
      let is_main2 :=
        if reply_indicators.any
            (fun ind => substrContains (strTake post_text 30) ind) then false
        else is_main1
      if is_main2 then some ⟨post_text, author_name, post_url, "", 0⟩
      else none
    else none

set_option maxRecDepth 4096

/-- C7: on the concatenated container text of the spec's example, the
extractor produces author "Jane Doe" and the body text with the
concatenated reply fragment ("2Bob SmithEncino") truncated by reply
pattern 1 (lines 1271-1338). -/
theorem extractor_example_jane_doe :
    parse_container_text
      "Jane DoeStudio City · 3 hr agoNeed a reliable pool guy, anyone have recs?2Bob SmithEncino"
      "" =
    some ⟨"Need a reliable pool guy, anyone have recs?", "Jane Doe",
      "", "", 0⟩ := by
  decide
